import Mathlib

/-!
# pg-save: shallow embedding and verification

A shallow embedding of the core of the `pg_save` utility (query planner in
`pg_save/querying/{query,table}.py`, exporter in `pg_save/export/*.py`,
normalization in `pg_save/utils/pd.py`), together with proofs settling the
frozen claims about its specification.

Modelling conventions:
* Python/pandas cell values are modelled by `PValue`; finite floats are
  rationals (`isinstance(x, float)` holds of `vFloat` and `vNaN`,
  `x.is_integer()` of `vFloat q` with `q.den = 1`, `int(x)` is `q.num`).
* A pandas `DataFrame` is column-major: a list of named, dtype-tagged
  columns, plus the row index (values and a `RangeIndex` type tag).
* The database connection is an oracle `Db.exec : sql → params → result`;
  functions that talk to it also return the trace of SQL texts executed.
* Exceptions are `Except`/`Option`: `.error`/`none` means the Python code
  raised (or, in `to_geojson`, logged and returned without writing).
-/

namespace PgSave

/-- A Python value as it appears in a result-set cell. -/
inductive PValue where
  | vNone : PValue
  | vNaN : PValue
  | vBool (b : Bool) : PValue
  | vInt (n : Int) : PValue
  | vFloat (q : Rat) : PValue
  | vStr (s : String) : PValue
deriving DecidableEq, Repr

/-! ## String helpers (models of the Python `str` operations used) -/

/-- The whitespace set of Python's `str.strip()` (ASCII part; the query
texts handled by the tool are ASCII). -/
def pyWhitespace (c : Char) : Bool :=
  c = ' ' ∨ c = '\t' ∨ c = '\n' ∨ c = '\r' ∨ c = '\x0b' ∨ c = '\x0c'

/-- `s.strip()`: drop leading and trailing whitespace. -/
def pyStrip (s : String) : String :=
  ⟨(s.data.dropWhile pyWhitespace).reverse.dropWhile pyWhitespace |>.reverse⟩

/-- `s.rstrip(";")`: drop trailing semicolons. -/
def rstripSemis (s : String) : String :=
  ⟨(s.data.reverse.dropWhile (· = ';')).reverse⟩

/-- `s.lower()` (ASCII model). -/
def lowerStr (s : String) : String :=
  ⟨s.data.map Char.toLower⟩

/-- `sub in hay` for Python strings: `sub` occurs as a contiguous substring. -/
def containsSub (hay sub : String) : Bool :=
  hay.data.tails.any (fun t => sub.data.isPrefixOf t)

/-- `", ".join l`. -/
def commaJoin (l : List String) : String :=
  String.intercalate ", " l

/-! ## Query planner (`pg_save/querying/query.py` and `table.py`)

The psycopg2 connection is abstracted as an oracle mapping an SQL text and
its parameter list to either a result (description + rows) or an error
(a raised psycopg2 exception). Both planner entry points also return the
list of SQL texts they actually sent to the connection, in order, so that
"executes nothing against the source" is a statement about that trace. -/

/-- One entry of `cursor.description`: column name and runtime type oid.
The oid is kept as a `PValue` exactly as fetched from `pg_type`. -/
structure ColDesc where
  name : String
  type_code : PValue
deriving DecidableEq, Repr

/-- What a cursor holds after `execute`: `cur.description` and `fetchall()`. -/
structure QueryResult where
  description : List ColDesc
  rows : List (List PValue)
deriving DecidableEq, Repr

/-- The database connection oracle. -/
structure Db where
  exec : String → List PValue → Except String QueryResult

/-- Row-major dataframe as built by
`pd.DataFrame(cur.fetchall(), columns=[desc.name for desc in cur.description])`. -/
structure QDF where
  columns : List String
  rows : List (List PValue)
deriving DecidableEq, Repr

/-- Errors of the `select` wrapper: the `UnsafeExpressionError` raised by the
safety gate, or a propagated database exception. -/
inductive SelectError where
  | unsafeExpression (phrase : String) : SelectError
  | dbError (msg : String) : SelectError
deriving DecidableEq, Repr

/-- The `stop_phrases` blocklist of `querying/query.py` (a Python `set`;
iteration order there is arbitrary, here fixed as written). -/
def stopPhrases : List String :=
  ["update ", "drop ", "insert ", "create ", ";", "alter ",
   "deallocate ", "copy ", "move ", "import ", "reassign ", "grant "]

/-- `query.strip().rstrip(";")` as performed by `select`. -/
def stripQuery (query : String) : String :=
  rstripSemis (pyStrip query)

/-- The gate loop: the first stop phrase contained in `query.lower()`. -/
def findStopPhrase (query : String) : Option String :=
  stopPhrases.find? (fun p => containsSub (lowerStr query) p)

/-- SQL text of the geometry/geography oid lookup. -/
def geomOidSql : String :=
  "SELECT oid FROM pg_type WHERE typname IN %s"

/-- Its parameters `(("geometry", "geography"),)` (flattened). -/
def geomOidParams : List PValue :=
  [.vStr "geometry", .vStr "geography"]

/-- SQL text re-reading the SRID of one value. -/
def sridValueSql : String :=
  "SELECT ST_SRID(geom::geometry) FROM (VALUES (%s)) tmp(geom)"

/-- SQL text of the batched GeoJSON re-cast over `n` row values. -/
def recastSql (n : Nat) : String :=
  "SELECT ST_AsGeoJSON(geom::geometry)::jsonb FROM (VALUES "
    ++ commaJoin (List.replicate n "(%s)") ++ ") tmp(geom)"

/-- Index of the first column with the given name (`df.iloc[0][name]` and
`df[name]` bind to columns by label; duplicate labels are resolved to the
first occurrence here — the claims never exercise duplicate labels in the
planner). -/
def QDF.colIdx? (df : QDF) (name : String) : Option Nat :=
  df.columns.indexOf? name

/-- Column values by label. -/
def QDF.colValues? (df : QDF) (name : String) : Option (List PValue) :=
  (df.colIdx? name).bind fun i => df.rows.mapM (fun r => r.get? i)

/-- `df[name] = vals`: replace the values of every column labelled `name`
(row `i` gets `vals[i]`), as pandas does for duplicate labels. -/
def QDF.setCol (df : QDF) (name : String) (vals : List PValue) : QDF :=
  ⟨df.columns,
   (df.rows.zip vals).map fun (r, v) =>
     (df.columns.zip r).map fun (c, x) => if c = name then v else x⟩

/-- `{column: crs}` dictionary (insertion-ordered, last write wins). -/
def pyDictUpsert (l : List (String × PValue)) (k : String) (v : PValue) :
    List (String × PValue) :=
  match l with
  | [] => [(k, v)]
  | (k', v') :: rest =>
    if k' = k then (k', v) :: rest else (k', v') :: pyDictUpsert rest k v

/-- The loop body of `select` over `cur.description` of the user query:
for each geometry-typed column, fetch its SRID from the first value and
re-cast the whole column to GeoJSON with one batched query. Returns the
updated dataframe, the crs dictionary and the SQL trace of this loop. -/
def recastLoop (db : Db) (geometryTypes : List PValue) :
    List ColDesc → QDF → Option (List (String × PValue)) →
    Except SelectError (QDF × Option (List (String × PValue))) × List String
  | [], df, crs => (.ok (df, crs), [])
  | desc :: rest, df, crs =>
    if geometryTypes.contains desc.type_code then
      -- cur.execute("SELECT ST_SRID(...)", (dataframe.iloc[0][desc.name],))
      match db.exec sridValueSql
          ((df.rows.head?.bind fun r =>
              (df.colIdx? desc.name).bind fun i => r.get? i).toList) with
      | .error e => (.error (.dbError e), [sridValueSql])
      | .ok sridRes =>
        -- crs_dict[desc.name] = cur.fetchone()[0]  (raises if no row)
        match sridRes.rows.head?.bind List.head? with
        | none => (.error (.dbError "fetchone returned no value"), [sridValueSql])
        | some sridVal =>
          let crs' := some (pyDictUpsert (crs.getD []) desc.name sridVal)
          match df.colValues? desc.name with
          | none => (.error (.dbError "column access failed"), [sridValueSql])
          | some colVals =>
            match db.exec (recastSql df.rows.length) colVals with
            | .error e => (.error (.dbError e), [sridValueSql, recastSql df.rows.length])
            | .ok castRes =>
              match castRes.rows.mapM List.head? with
              | none => (.error (.dbError "empty row in recast result"),
                         [sridValueSql, recastSql df.rows.length])
              | some newVals =>
                if newVals.length = df.rows.length then
                  let out := recastLoop db geometryTypes rest
                               (df.setCol desc.name newVals) crs'
                  (out.1, sridValueSql :: recastSql df.rows.length :: out.2)
                else
                  (.error (.dbError "length mismatch on column assignment"),
                   [sridValueSql, recastSql df.rows.length])
    else
      recastLoop db geometryTypes rest df crs

/-- `select(conn, query, execute_as_is)` of `pg_save/querying/query.py`.

Returns the result (or raised error) together with the trace of SQL texts
executed against the connection. -/
def select (db : Db) (query : String) (executeAsIs : Bool := false) :
    Except SelectError (QDF × Option (List (String × PValue))) × List String :=
  let q := stripQuery query
  match findStopPhrase q with
  | some p => (.error (.unsafeExpression p), [])
  | none =>
    match db.exec geomOidSql geomOidParams with
    | .error e => (.error (.dbError e), [geomOidSql])
    | .ok oidRes =>
      let geometryTypes := oidRes.rows.filterMap List.head?
      match db.exec q [] with
      | .error e => (.error (.dbError e), [geomOidSql, q])
      | .ok res =>
        let df : QDF := ⟨res.description.map ColDesc.name, res.rows⟩
        if executeAsIs ∨ df.rows.length = 0 then
          (.ok (df, none), [geomOidSql, q])
        else
          let out := recastLoop db geometryTypes res.description df none
          (out.1, geomOidSql :: q :: out.2)

/-! ### `get_table` (`pg_save/querying/table.py`) -/

/-- `f"SELECT * from {table} LIMIT 0"` — the zero-row column probe. -/
def probeSql (table : String) : String :=
  "SELECT * from " ++ table ++ " LIMIT 0"

/-- `f"SELECT ST_SRID({col}) FROM {table} LIMIT 1"`. -/
def sridTableSql (col table : String) : String :=
  "SELECT ST_SRID(" ++ col ++ ") FROM " ++ table ++ " LIMIT 1"

/-- The per-column projection chosen by the loop of `get_table`: a spatial
column is rewritten to its GeoJSON cast (of its centroid when
`use_centroids`), every other column is projected as-is. -/
def projection (geometryTypes : List PValue) (useCentroids : Bool)
    (desc : ColDesc) : String :=
  if geometryTypes.contains desc.type_code then
    if useCentroids then
      "ST_AsGeoJSON(ST_Centroid(\"" ++ desc.name ++ "\"))::jsonb \"" ++ desc.name ++ "\""
    else
      "ST_AsGeoJSON(\"" ++ desc.name ++ "\")::jsonb \"" ++ desc.name ++ "\""
  else desc.name

/-- The loop of `get_table` over the probed description: builds
`columns_to_select` and, for spatial columns, queries the SRID
(`fetchone()` returning no row leaves the crs dict untouched). Returns the
projection list, the crs dict and this loop's SQL trace. -/
def tableLoop (db : Db) (table : String) (geometryTypes : List PValue)
    (useCentroids : Bool) :
    List ColDesc → Option (List (String × PValue)) →
    Except String (List String × Option (List (String × PValue))) × List String
  | [], crs => (.ok ([], crs), [])
  | desc :: rest, crs =>
    if geometryTypes.contains desc.type_code then
      match db.exec (sridTableSql desc.name table) [] with
      | .error e => (.error e, [sridTableSql desc.name table])
      | .ok sridRes =>
        -- res = cur.fetchone(); if res is not None: crs_dict[desc.name] = res[0]
        match sridRes.rows.head? with
        | none =>
          let out := tableLoop db table geometryTypes useCentroids rest crs
          ((out.1.map fun (sel, c) => (projection geometryTypes useCentroids desc :: sel, c)),
           sridTableSql desc.name table :: out.2)
        | some row =>
          match row.head? with
          | none => (.error "IndexError: tuple index out of range",
                     [sridTableSql desc.name table])
          | some sridVal =>
            let crs' := some (pyDictUpsert (crs.getD []) desc.name sridVal)
            let out := tableLoop db table geometryTypes useCentroids rest crs'
            ((out.1.map fun (sel, c) => (projection geometryTypes useCentroids desc :: sel, c)),
             sridTableSql desc.name table :: out.2)
    else
      let out := tableLoop db table geometryTypes useCentroids rest crs
      ((out.1.map fun (sel, c) => (desc.name :: sel, c)), out.2)

/-- `get_table(conn, table, use_centroids)` of `pg_save/querying/table.py`:
resolve spatial type oids, probe the table's columns, rewrite spatial
projections, then run the full projection. Returns the result (or raised
error) and the trace of executed SQL texts. -/
def get_table (db : Db) (table : String) (useCentroids : Bool := false) :
    Except String (QDF × Option (List (String × PValue))) × List String :=
  match db.exec geomOidSql geomOidParams with
  | .error e => (.error e, [geomOidSql])
  | .ok oidRes =>
    let geometryTypes := oidRes.rows.filterMap List.head?
    match db.exec (probeSql table) [] with
    | .error e => (.error e, [geomOidSql, probeSql table])
    | .ok probeRes =>
      let loopOut := tableLoop db table geometryTypes useCentroids probeRes.description none
      match loopOut.1 with
      | .error e => (.error e, geomOidSql :: probeSql table :: loopOut.2)
      | .ok (sel, crs) =>
        let finalSql := "SELECT " ++ commaJoin sel ++ " FROM " ++ table
        match db.exec finalSql [] with
        | .error e =>
          (.error e, geomOidSql :: probeSql table :: (loopOut.2 ++ [finalSql]))
        | .ok res =>
          (.ok (⟨res.description.map ColDesc.name, res.rows⟩, crs),
           geomOidSql :: probeSql table :: (loopOut.2 ++ [finalSql]))

/-! ## Column renaming (`beautify_dataframe`, `pg_save/utils/pd.py`)

`beautify_dataframe` renames columns through a stateful closure:

```python
columns_name_counts = Counter(dataframe.columns)
counters = defaultdict(lambda: -1)
def rename_func(column_name):
    while columns_name_counts[column_name] > 1:
        counters[column_name] += 1
        column_name = f"{column_name}_{counters[column_name]}"
        columns_name_counts[column_name] += 1
    return column_name
dataframe = dataframe.rename(rename_func, axis=1)
```

`pandas.rename` with a callable applies it to each column label in order.
Both dictionaries are modelled as association lists of natural numbers:
`counts` defaults to 0 (`Counter`), and `nextIdx n` stores
`counters[n] + 1`, i.e. the suffix the next generation for `n` will use
(`defaultdict(lambda: -1)` incremented before each read starts at 0).
The `while` loop is run on explicit fuel (Lean needs a terminating
function); `renameLoop_exits` below proves the fuel bound used by `rename`
always suffices, i.e. the loop is left only through its guard, exactly as
in Python. -/

/-- First-match lookup in an association list, defaulting to 0. -/
def lookupC : List (String × Nat) → String → Nat
  | [], _ => 0
  | (k, v) :: rest, n => if k = n then v else lookupC rest n

/-- `d[n] += 1` on a `Counter`: bump the first entry for `n`, or append a
fresh entry with value 1. -/
def bumpC : List (String × Nat) → String → List (String × Nat)
  | [], n => [(n, 1)]
  | (k, v) :: rest, n =>
    if k = n then (k, v + 1) :: rest else (k, v) :: bumpC rest n

/-- `d[n] = v`: set the first entry for `n`, or append. -/
def setC : List (String × Nat) → String → Nat → List (String × Nat)
  | [], n, v => [(n, v)]
  | (k, w) :: rest, n, v =>
    if k = n then (k, v) :: rest else (k, w) :: setC rest n v

/-- The closure state of `rename_func`. -/
structure CState where
  counts : List (String × Nat)
  nextIdx : List (String × Nat)
deriving DecidableEq, Repr

/-- Termination measure for the `while` loop: how many counted names longer
than the current candidate still hold a positive count. Each loop step
makes the candidate strictly longer and consumes such a name. -/
def muMeasure (counts : List (String × Nat)) (name : String) : Nat :=
  (counts.filter fun p => decide (1 ≤ p.2) && decide (name.length < p.1.length)).length

/-- The `while` body of `rename_func`, on fuel. -/
def renameLoop : Nat → CState → String → String × CState
  | 0, st, name => (name, st)
  | fuel + 1, st, name =>
    if lookupC st.counts name ≤ 1 then (name, st)
    else
      let k := lookupC st.nextIdx name
      let name' := name ++ "_" ++ Nat.repr k
      let st' : CState := ⟨bumpC st.counts name', setC st.nextIdx name (k + 1)⟩
      renameLoop fuel st' name'

/-- `rename_func(name)` with its state threaded explicitly; the fuel
`muMeasure + 1` is proven sufficient below. -/
def rename (st : CState) (name : String) : String × CState :=
  renameLoop (muMeasure st.counts name + 1) st name

/-- `dataframe.rename(rename_func, axis=1)`: apply `rename_func` to each
label in order, threading the closure state. -/
def renameAll (st : CState) : List String → List String × CState
  | [] => ([], st)
  | c :: rest =>
    let (n, st1) := rename st c
    let (ns, st2) := renameAll st1 rest
    (n :: ns, st2)

/-- `Counter(dataframe.columns)`. -/
def mkCounts (cols : List String) : List (String × Nat) :=
  cols.foldl bumpC []

/-- The complete column-renaming pass of `beautify_dataframe`. -/
def renameColumns (cols : List String) : List String :=
  (renameAll ⟨mkCounts cols, []⟩ cols).1

/-! ### Lemmas about the counter dictionaries -/

theorem lookupC_bumpC (l : List (String × Nat)) (n m : String) :
    lookupC (bumpC l n) m = if m = n then lookupC l n + 1 else lookupC l m := by
  induction l with
  | nil =>
    simp only [bumpC, lookupC]
    by_cases h : m = n
    · subst h; simp
    · have h2 : ¬ n = m := fun hh => h hh.symm
      simp [h, h2]
  | cons p rest ih =>
    obtain ⟨k, v⟩ := p
    by_cases hk : k = n
    · subst hk
      simp only [bumpC, if_pos rfl, lookupC]
      by_cases hm : k = m
      · subst hm; simp
      · have hm2 : ¬ m = k := fun hh => hm hh.symm
        simp [hm, hm2]
    · simp only [bumpC, if_neg hk, lookupC, ih]
      by_cases hmn : m = n
      · have hkm : ¬ k = m := fun hh => hk (hh.trans hmn)
        simp [hmn, hkm, hk]
      · simp [hmn]

theorem lookupC_pos_mem (l : List (String × Nat)) (n : String)
    (h : 1 ≤ lookupC l n) : (n, lookupC l n) ∈ l := by
  induction l with
  | nil => simp [lookupC] at h
  | cons p rest ih =>
    obtain ⟨k, v⟩ := p
    by_cases hk : k = n
    · subst hk
      simp only [lookupC, if_pos rfl] at h ⊢
      exact List.mem_cons_self _ _
    · simp only [lookupC, if_neg hk] at h ⊢
      exact List.mem_cons_of_mem _ (ih h)

/-- Pointwise order between counter dictionaries. -/
def cLe (a b : List (String × Nat)) : Prop :=
  ∀ k, lookupC a k ≤ lookupC b k

theorem cLe_refl (a : List (String × Nat)) : cLe a a := fun _ => le_refl _

theorem cLe_trans {a b c : List (String × Nat)} (h1 : cLe a b) (h2 : cLe b c) :
    cLe a c := fun k => le_trans (h1 k) (h2 k)

theorem cLe_bumpC (l : List (String × Nat)) (n : String) : cLe l (bumpC l n) := by
  intro k
  rw [lookupC_bumpC]
  by_cases h : k = n <;> simp [h]

/-! ### The termination measure decreases -/

theorem length_filter_mono {α : Type} (P Q : α → Bool) (l : List α)
    (h : ∀ x, P x = true → Q x = true) :
    (l.filter P).length ≤ (l.filter Q).length := by
  induction l with
  | nil => simp
  | cons a rest ih =>
    by_cases hP : P a = true
    · simp only [List.filter, hP, h a hP, List.length_cons]
      omega
    · have hP' : P a = false := by revert hP; cases P a <;> simp
      cases hQ : Q a <;> simp only [List.filter, hP', hQ, List.length_cons] <;> omega

theorem length_filter_lt {α : Type} (P Q : α → Bool) (l : List α)
    (h : ∀ x, P x = true → Q x = true) (x : α)
    (hQ : Q x = true) (hP : P x = false) :
    ∀ _ : x ∈ l, (l.filter P).length < (l.filter Q).length := by
  induction l with
  | nil => intro hx; simp at hx
  | cons a rest ih =>
    intro hx
    rcases List.mem_cons.mp hx with hxa | hxr
    · subst hxa
      simp only [List.filter, hP, hQ, List.length_cons]
      have := length_filter_mono P Q rest h
      omega
    · have := ih hxr
      by_cases hPa : P a = true
      · simp only [List.filter, hPa, h a hPa, List.length_cons]
        omega
      · have hPa' : P a = false := by revert hPa; cases P a <;> simp
        cases hQa : Q a <;> simp only [List.filter, hPa', hQa, List.length_cons] <;> omega

theorem filter_bumpC (l : List (String × Nat)) (n : String)
    (P : String × Nat → Bool) (hP : ∀ v, P (n, v) = false) :
    (bumpC l n).filter P = l.filter P := by
  induction l with
  | nil => simp [bumpC, List.filter, hP]
  | cons p rest ih =>
    obtain ⟨k, v⟩ := p
    by_cases hk : k = n
    · subst hk
      simp [bumpC, List.filter, hP]
    · simp [bumpC, hk, List.filter]
      cases hPa : P (k, v) <;> simp [hPa, ih]

theorem muMeasure_bumpC_lt (c : List (String × Nat)) (name name' : String)
    (hlen : name.length < name'.length) (hpos : 1 ≤ lookupC c name') :
    muMeasure (bumpC c name') name' < muMeasure c name := by
  unfold muMeasure
  rw [filter_bumpC c name' _ (fun v => by simp)]
  apply length_filter_lt _ _ c ?mono (name', lookupC c name') ?hq ?hp
      (lookupC_pos_mem c name' hpos)
  case mono =>
    intro x hx
    simp at hx ⊢
    exact ⟨hx.1, lt_trans hlen hx.2⟩
  case hq => simp [hpos, hlen]
  case hp => simp

/-! ### Behavior of the rename loop -/

/-- The successor step of the fueled `while` loop, as an equation. -/
theorem renameLoop_succ (f : Nat) (st : CState) (name : String) :
    renameLoop (f + 1) st name =
      if lookupC st.counts name ≤ 1 then (name, st)
      else
        renameLoop f
          ⟨bumpC st.counts (name ++ "_" ++ Nat.repr (lookupC st.nextIdx name)),
           setC st.nextIdx name (lookupC st.nextIdx name + 1)⟩
          (name ++ "_" ++ Nat.repr (lookupC st.nextIdx name)) := rfl

theorem renameLoop_mono : ∀ (fuel : Nat) (st : CState) (name : String),
    cLe st.counts (renameLoop fuel st name).2.counts := by
  intro fuel
  induction fuel with
  | zero => intro st name; exact cLe_refl _
  | succ f ih =>
    intro st name
    rw [renameLoop_succ]
    by_cases hg : lookupC st.counts name ≤ 1
    · rw [if_pos hg]; exact cLe_refl _
    · rw [if_neg hg]
      intro key
      exact le_trans (cLe_bumpC st.counts _ key)
        (ih ⟨bumpC st.counts (name ++ "_" ++ Nat.repr (lookupC st.nextIdx name)),
             setC st.nextIdx name (lookupC st.nextIdx name + 1)⟩
            (name ++ "_" ++ Nat.repr (lookupC st.nextIdx name)) key)

/-- Full characterization of one `rename_func` call: the loop either exits
immediately (its guard fails: the count is at most 1) leaving the state
untouched, or the returned name was freshly generated — there is an
intermediate counts dictionary (pointwise at least the initial one) in
which the returned name had count 0, and the final counts are that
dictionary with the returned name bumped to 1.  The fuel hypothesis is
discharged by `rename` itself, whose fuel is `muMeasure + 1`. -/
theorem renameLoop_spec : ∀ (fuel : Nat) (st : CState) (name n : String)
    (st' : CState), muMeasure st.counts name < fuel →
    renameLoop fuel st name = (n, st') →
    (n = name ∧ st' = st ∧ lookupC st.counts name ≤ 1) ∨
    (∃ cm, cLe st.counts cm ∧ lookupC cm n = 0 ∧ st'.counts = bumpC cm n) := by
  intro fuel
  induction fuel with
  | zero => intro st name n st' hmu; omega
  | succ f ih =>
    intro st name n st' hmu heq
    rw [renameLoop_succ] at heq
    by_cases hg : lookupC st.counts name ≤ 1
    · rw [if_pos hg] at heq
      injection heq with h1 h2
      exact Or.inl ⟨h1.symm, h2.symm, hg⟩
    · rw [if_neg hg] at heq
      set k := lookupC st.nextIdx name with hk
      set name' := name ++ "_" ++ Nat.repr k with hname'
      set st2 : CState := ⟨bumpC st.counts name', setC st.nextIdx name (k + 1)⟩
        with hst2
      have hlen : name.length < name'.length := by
        rw [hname', String.length_append, String.length_append]
        have : (1 : Nat) ≤ ("_" : String).length := by decide
        omega
      have hcounts2 : lookupC st2.counts name' = lookupC st.counts name' + 1 := by
        rw [hst2]
        show lookupC (bumpC st.counts name') name' = _
        rw [lookupC_bumpC]
        simp
      by_cases hpre : 1 ≤ lookupC st.counts name'
      · have hmu2 : muMeasure st2.counts name' < f := by
          have h1 : muMeasure st2.counts name' < muMeasure st.counts name := by
            rw [hst2]
            exact muMeasure_bumpC_lt st.counts name name' hlen hpre
          omega
        rcases ih st2 name' n st' hmu2 heq with ⟨hn, hst, hle⟩ | ⟨cm, h1, h2, h3⟩
        · exfalso
          omega
        · refine Or.inr ⟨cm, cLe_trans ?_ h1, h2, h3⟩
          have : st2.counts = bumpC st.counts name' := by rw [hst2]
          rw [← this] at *
          intro key
          rw [this]
          exact cLe_bumpC st.counts name' key
      · have hpre0 : lookupC st.counts name' = 0 := by omega
        have hdone : renameLoop f st2 name' = (name', st2) := by
          cases f with
          | zero => rfl
          | succ g =>
            rw [renameLoop_succ]
            rw [if_pos (by omega)]
        rw [hdone] at heq
        injection heq with h1 h2
        refine Or.inr ⟨st.counts, cLe_refl _, ?_, ?_⟩
        · rw [← h1]; exact hpre0
        · rw [← h2, hst2, ← h1]

theorem rename_spec (st : CState) (name n : String) (st' : CState)
    (heq : rename st name = (n, st')) :
    (n = name ∧ st' = st ∧ lookupC st.counts name ≤ 1) ∨
    (∃ cm, cLe st.counts cm ∧ lookupC cm n = 0 ∧ st'.counts = bumpC cm n) :=
  renameLoop_spec _ st name n st' (Nat.lt_succ_self _) heq

theorem rename_mono (st : CState) (name : String) :
    cLe st.counts (rename st name).2.counts :=
  renameLoop_mono _ st name

theorem rename_of_le_one (st : CState) (name : String)
    (h : lookupC st.counts name ≤ 1) : rename st name = (name, st) := by
  unfold rename
  rw [renameLoop_succ, if_pos h]

/-! ### Distinctness of the renamed columns -/

theorem renameAll_cons (st : CState) (c : String) (rest : List String) :
    renameAll st (c :: rest) =
      ((rename st c).1 :: (renameAll (rename st c).2 rest).1,
       (renameAll (rename st c).2 rest).2) := rfl

theorem renameAll_mono : ∀ (cols : List String) (st : CState),
    cLe st.counts (renameAll st cols).2.counts := by
  intro cols
  induction cols with
  | nil => intro st; exact cLe_refl _
  | cons c rest ih =>
    intro st
    rw [renameAll_cons]
    intro key
    exact le_trans (rename_mono st c key) (ih (rename st c).2 key)

/-- A name that already holds a positive count when the fold starts, and
does not occur among the labels still to be processed, is never produced
by the remaining `rename_func` calls.  (A later call either returns a
pending label unchanged — which is not `x` — or generates a fresh name
whose count was 0 at generation time, which `x`'s positive, monotonically
preserved count rules out.) -/
theorem renameAll_avoid : ∀ (rest : List String) (st : CState) (x : String),
    1 ≤ lookupC st.counts x → rest.count x = 0 →
    x ∉ (renameAll st rest).1 := by
  intro rest
  induction rest with
  | nil => intro st x _ _; simp [renameAll]
  | cons c rest ih =>
    intro st x hx hcount
    have hcx : ¬ x = c := by
      intro h
      rw [List.count_cons] at hcount
      simp [h] at hcount
    have hrest : rest.count x = 0 := by
      rw [List.count_cons] at hcount
      omega
    rw [renameAll_cons]
    rcases hr : rename st c with ⟨n, st1⟩
    simp only [List.mem_cons, not_or]
    rcases rename_spec st c n st1 hr with ⟨hn, hst, _⟩ | ⟨cm, hle, h0, hbump⟩
    · constructor
      · rw [hn]; exact hcx
      · rw [hst]; exact ih st x hx hrest
    · have hxn : ¬ x = n := by
        intro h
        rw [← h] at h0
        have := hle x
        omega
      refine ⟨hxn, ?_⟩
      apply ih st1 x ?_ hrest
      have h1 : lookupC st1.counts x = lookupC (bumpC cm n) x := by rw [hbump]
      have h2 := cLe_bumpC cm n x
      have := hle x
      omega

/-- Every `rename_func` output of the fold is distinct, provided each
pending label has multiplicity at most its current count — which
`Counter(dataframe.columns)` establishes at the start. -/
theorem renameAll_nodup : ∀ (pending : List String) (st : CState),
    (∀ m, pending.count m ≤ lookupC st.counts m) →
    (renameAll st pending).1.Nodup := by
  intro pending
  induction pending with
  | nil => intro st _; simp [renameAll]
  | cons c rest ih =>
    intro st hcount
    rw [renameAll_cons]
    rcases hr : rename st c with ⟨n, st1⟩
    rw [List.nodup_cons]
    have hcc : rest.count c + 1 ≤ lookupC st.counts c := by
      have := hcount c
      rw [List.count_cons] at this
      simp at this
      omega
    constructor
    · -- n does not occur among the remaining outputs
      rcases rename_spec st c n st1 hr with ⟨hn, hst, hle1⟩ | ⟨cm, hle, h0, hbump⟩
      · have hrest0 : rest.count c = 0 := by omega
        have h1 : 1 ≤ lookupC st.counts c := by omega
        rw [hn, hst]
        exact renameAll_avoid rest st c h1 hrest0
      · have hst0 : lookupC st.counts n = 0 := by
          have := hle n
          omega
        have hrest0 : rest.count n = 0 := by
          have := hcount n
          rw [List.count_cons] at this
          omega
        have h1 : 1 ≤ lookupC st1.counts n := by
          have h2 : lookupC st1.counts n = lookupC (bumpC cm n) n := by rw [hbump]
          rw [lookupC_bumpC] at h2
          simp at h2
          omega
        exact renameAll_avoid rest st1 n h1 hrest0
    · -- remaining outputs are themselves distinct
      apply ih st1
      intro m
      have hcm := hcount m
      rw [List.count_cons] at hcm
      have hmono : lookupC st.counts m ≤ lookupC st1.counts m := by
        have hmm := rename_mono st c m
        rw [hr] at hmm
        exact hmm
      rcases eq_or_ne m c with h | h
      · subst h
        simp at hcm
        omega
      · simp [h] at hcm
        omega

theorem lookupC_foldl_bumpC : ∀ (l : List String) (acc : List (String × Nat))
    (m : String), lookupC (l.foldl bumpC acc) m = lookupC acc m + l.count m := by
  intro l
  induction l with
  | nil => intro acc m; simp
  | cons c rest ih =>
    intro acc m
    rw [List.foldl_cons, ih, lookupC_bumpC, List.count_cons]
    rcases eq_or_ne m c with h | h
    · subst h; simp; omega
    · simp [h]
      exact fun hh => h hh.symm

theorem mkCounts_lookup (cols : List String) (m : String) :
    lookupC (mkCounts cols) m = cols.count m := by
  unfold mkCounts
  rw [lookupC_foldl_bumpC]
  simp [lookupC]

/-- The renamed column list never contains two equal names. -/
theorem renameColumns_nodup (cols : List String) : (renameColumns cols).Nodup := by
  unfold renameColumns
  apply renameAll_nodup
  intro m
  rw [mkCounts_lookup]

/-- When no pending label has count above 1, every call exits immediately
and the fold is the identity. -/
theorem renameAll_id : ∀ (cols : List String) (st : CState),
    (∀ c ∈ cols, lookupC st.counts c ≤ 1) → renameAll st cols = (cols, st) := by
  intro cols
  induction cols with
  | nil => intro st _; rfl
  | cons c rest ih =>
    intro st h
    rw [renameAll_cons, rename_of_le_one st c (h c (List.mem_cons_self _ _))]
    rw [ih st (fun x hx => h x (List.mem_cons_of_mem _ hx))]

/-- Renaming does not change a duplicate-free column list. -/
theorem renameColumns_id (cols : List String) (h : cols.Nodup) :
    renameColumns cols = cols := by
  unfold renameColumns
  rw [renameAll_id]
  intro c _
  rw [mkCounts_lookup]
  exact List.nodup_iff_count_le_one.mp h c

theorem renameAll_length : ∀ (cols : List String) (st : CState),
    (renameAll st cols).1.length = cols.length := by
  intro cols
  induction cols with
  | nil => intro st; rfl
  | cons c rest ih =>
    intro st
    rw [renameAll_cons]
    simp [ih]

theorem renameColumns_length (cols : List String) :
    (renameColumns cols).length = cols.length :=
  renameAll_length cols _

/-! ## The exporter's DataFrame model

A pandas `DataFrame` is modelled column-major: each column carries its
label, its pandas dtype (kept as the dtype's name — dtype inference is
pandas-internal, the exporter only ever compares it against the
`serializable_types` list), and its cell values; plus the row index (its
values and whether it is a `RangeIndex`). -/

/-- One DataFrame column. -/
structure Col where
  name : String
  dtype : String
  values : List PValue
deriving DecidableEq, Repr

/-- Column-major pandas DataFrame. -/
structure DataFrame where
  nrows : Nat
  cols : List Col
  index : List PValue
  indexIsRange : Bool
deriving DecidableEq, Repr

/-- Rectangularity: every column and the index have `nrows` values. -/
def DataFrame.WF (df : DataFrame) : Prop :=
  (∀ c ∈ df.cols, c.values.length = df.nrows) ∧ df.index.length = df.nrows

/-- The column labels. -/
def DataFrame.names (df : DataFrame) : List String :=
  df.cols.map Col.name

/-- The values of `pd.RangeIndex(n)`. -/
def rangeIndexVals (n : Nat) : List PValue :=
  (List.range n).map fun i => .vInt i

/-- `int(x) if isinstance(x, float) and x.is_integer() else x`:
a finite float with zero fractional part becomes an int (`vNaN` is a float
but not an integer, so it passes through). -/
def coerceVal : PValue → PValue
  | .vFloat q => if q.den = 1 then .vInt q.num else .vFloat q
  | v => v

/-- `.replace({np.nan: None})`, pointwise. -/
def nanToNone : PValue → PValue
  | .vNaN => .vNone
  | v => v

/-- The per-column whole-float-to-int pass
(`pd.Series(map(...), dtype=object)` rebuilds each column with object
dtype). -/
def coerceColumns (cols : List Col) : List Col :=
  cols.map fun c => ⟨c.name, "object", c.values.map coerceVal⟩

/-- `dataframe.replace({np.nan: None})` over all columns. -/
def replaceNaNColumns (cols : List Col) : List Col :=
  cols.map fun c => ⟨c.name, c.dtype, c.values.map nanToNone⟩

/-- The guarded `reset_index()` of `beautify_dataframe`: when the index is
not `pd.RangeIndex(shape[0])` (by type or by values), fold it back in as a
leading `"index"` column; pandas `reset_index` raises when a column named
`"index"` already exists — modelled by `none`. -/
def resetIndexStep (df : DataFrame) : Option DataFrame :=
  if df.indexIsRange ∧ df.index = rangeIndexVals df.nrows then some df
  else if "index" ∈ df.names then none
  else some ⟨df.nrows, ⟨"index", "object", df.index⟩ :: df.cols,
             rangeIndexVals df.nrows, true⟩

/-- The remainder of `beautify_dataframe`: rename duplicated column names
through `rename_func`, coerce whole floats to ints (rebuilding every
column with object dtype via `pd.Series(..., dtype=object)`), replace NaN
with None. -/
def beautifyCore (df1 : DataFrame) : DataFrame :=
  let newNames := renameColumns df1.names
  let renamedCols : List Col :=
    (df1.cols.zip newNames).map fun p => ⟨p.2, p.1.dtype, p.1.values⟩
  ⟨df1.nrows, replaceNaNColumns (coerceColumns renamedCols),
   df1.index, df1.indexIsRange⟩

/-- `beautify_dataframe` (`pg_save/utils/pd.py`). -/
def beautify_dataframe (df : DataFrame) : Option DataFrame :=
  match resetIndexStep df with
  | none => none
  | some df1 => some (beautifyCore df1)

/-! ## Export drivers (`pg_save/export/*.py`) -/

/-- The dtypes the json/geojson drivers keep. -/
def serializable_types : List String := ["object", "int64", "float64", "bool"]

/-- Python `dict(...)` built from a pair sequence: insertion order of the
first occurrence of each key, last written value wins. -/
def pyDict (pairs : List (String × PValue)) : List (String × PValue) :=
  pairs.foldl (fun acc p => pyDictUpsert acc p.1 p.2) []

/-- Rendering of one cell as pandas `to_csv` writes it for object columns.
Quoting of separators is omitted (no claim depends on it); the rendering
of non-whole floats stands in for Python's binary-float repr, whole floats
print with the `".0"` artifact exactly as Python does. -/
def floatRepr (q : Rat) : String :=
  if q.den = 1 then Int.repr q.num ++ ".0" else toString q

def csvCell : PValue → String
  | .vNone => ""
  | .vNaN => ""
  | .vBool b => if b then "True" else "False"
  | .vInt n => Int.repr n
  | .vFloat q => floatRepr q
  | .vStr s => s

/-- `to_csv` (`pg_save/export/csv.py`): coerce whole floats to ints
(rebuilding every column with object dtype), replace NaN with None, then
write header plus rows without the index. Returns the written header and
cell grid. -/
def to_csv (df : DataFrame) : List String × List (List String) :=
  let cols1 := replaceNaNColumns (coerceColumns df.cols)
  (cols1.map Col.name,
   (List.range df.nrows).map fun i => cols1.map fun c => csvCell (c.values.getD i .vNone))

/-- Number of columns currently labelled `name`. -/
def countName (cols : List Col) (name : String) : Nat :=
  (cols.filter fun c => c.name = name).length

/-- `dataframe.rename(lambda n: n if n != col else f"{col}_{next(rng)}")`:
the k-th column labelled `target` (in order) becomes `target_k`. -/
def renameOccAux (target : String) (k : Nat) : List Col → List Col
  | [] => []
  | c :: rest =>
    if c.name = target then
      ⟨target ++ "_" ++ Nat.repr k, c.dtype, c.values⟩ :: renameOccAux target (k + 1) rest
    else
      c :: renameOccAux target k rest

def renameOccurrences (cols : List Col) (target : String) : List Col :=
  renameOccAux target 0 cols

/-- `if dataframe[nm].dtypes not in serializable_types:
dataframe = dataframe.drop(nm, axis=1)`. The dtype read is of the first
column labelled `nm` (the label is unique at every use site reachable
without pandas itself raising); `drop` removes every column with that
label. -/
def dropNonSerializable (cols : List Col) (nm : String) : List Col :=
  match cols.find? fun c => c.name = nm with
  | some c =>
    if serializable_types.contains c.dtype then cols
    else cols.filter fun c' => ¬ c'.name = nm
  | none => cols

/-- One iteration of `for col in set(dataframe.columns)` in
`to_geojson`: duplicated labels are renamed `col_0, col_1, ...` and the
renamed columns are dropped when not serializable; a unique label is
dropped when not serializable. -/
def geojsonSetStep (cols : List Col) (name : String) : List Col :=
  let k := countName cols name
  if 1 < k then
    let renamed := renameOccurrences cols name
    (List.range k).foldl (fun acc i => dropNonSerializable acc (name ++ "_" ++ Nat.repr i)) renamed
  else if k = 1 then dropNonSerializable cols name
  else cols

/-- One iteration of the same loop in `to_json`: identical, except that in
the duplicate branch the non-serializable renamed columns are only warned
about, not dropped (`json.py` line 38 has no reassignment). -/
def jsonSetStep (cols : List Col) (name : String) : List Col :=
  let k := countName cols name
  if 1 < k then renameOccurrences cols name
  else if k = 1 then dropNonSerializable cols name
  else cols

/-- Iteration order stand-in for Python's `set(dataframe.columns)` (whose
order is arbitrary): the distinct labels in first-occurrence order. -/
def firstDedupAux (seen : List String) : List String → List String
  | [] => []
  | n :: rest =>
    if n ∈ seen then firstDedupAux seen rest
    else n :: firstDedupAux (n :: seen) rest

def firstDedup (l : List String) : List String :=
  firstDedupAux [] l

/-- The column pipeline of `to_json`: duplicate renaming / serializability
drops, whole-float coercion, NaN replacement. -/
def jsonProcessCols (df : DataFrame) : List Col :=
  replaceNaNColumns (coerceColumns
    ((firstDedup (df.cols.map Col.name)).foldl jsonSetStep df.cols))

/-- `to_json` (`pg_save/export/json.py`): rename duplicated labels / drop
non-serializable unique columns, coerce whole floats to ints, replace NaN
with None, and emit the array of row objects
(`[dict(row) for _, row in dataframe.iterrows()]`). -/
def to_json (df : DataFrame) : List (List (String × PValue)) :=
  (List.range df.nrows).map fun i =>
    pyDict ((jsonProcessCols df).map fun c => (c.name, c.values.getD i .vNone))

/-- The export destination: a filename or an in-memory buffer. -/
inductive Dest where
  | file (filename : String) : Dest
  | buffer : Dest
deriving DecidableEq, Repr

/-- `crs: int | str` as taken by `to_geojson`. -/
inductive CrsScalar where
  | int (code : Int) : CrsScalar
  | str (s : String) : CrsScalar
deriving DecidableEq, Repr

/-- Modelled from the spec: the module `pg_save/export/default_crs.py`
(`DEFAULT_CRS`, imported by the export layer) is not among the sources;
per the spec the final CRS fallback is EPSG:4326, and the `to_geojson`
docstring confirms "Defaults to 4326". -/
def DEFAULT_CRS : CrsScalar := .int 4326

structure GeoFeature where
  ftype : String
  properties : List (String × PValue)
  geometry : PValue
deriving DecidableEq, Repr

structure GeoJsonDoc where
  gtype : String
  name : Option String
  crsType : String
  crsName : String
  features : List GeoFeature
deriving DecidableEq, Repr

/-- The column pipeline of `to_geojson` after the geometry column has been
set aside: duplicate renaming / serializability drops, whole-float
coercion (only when there is at least one row), NaN replacement. -/
def geojsonProcessCols (df : DataFrame) (geometry_column : String) : List Col :=
  let cols0 := df.cols.filter fun c => ¬ c.name = geometry_column
  let cols1 := (firstDedup (cols0.map Col.name)).foldl geojsonSetStep cols0
  let cols2 := if 0 < df.nrows then coerceColumns cols1 else cols1
  replaceNaNColumns cols2

/-- `geojson["name"] = filename_or_buf` happens only for a named file. -/
def Dest.docName : Dest → Option String
  | .file f => some f
  | .buffer => none

/-- `f"urn:ogc:def:crs:EPSG::{crs}" if isinstance(crs, int) else crs`. -/
def CrsScalar.render : CrsScalar → String
  | .int n => "urn:ogc:def:crs:EPSG::" ++ Int.repr n
  | .str s => s

/-- `to_geojson` (`pg_save/export/geojson.py`): `none` models "logged an
error and returned without writing" (the guard when the geometry column is
absent); `some doc` is the document passed to `json.dump`. The function is
total — it raises nothing. -/
def to_geojson (df : DataFrame) (dst : Dest)
    (geometry_column : String := "geometry") (crs : CrsScalar := DEFAULT_CRS) :
    Option GeoJsonDoc :=
  if geometry_column ∈ df.names then
    let geomVals := ((df.cols.find? fun c => c.name = geometry_column).map Col.values).getD []
    let cols3 := geojsonProcessCols df geometry_column
    some
      { gtype := "FeatureCollection"
        name := dst.docName
        crsType := "name"
        crsName := crs.render
        features :=
          List.zipWith
            (fun i g =>
              { ftype := "Feature"
                properties := pyDict (cols3.map fun c => (c.name, c.values.getD i .vNone))
                geometry := g })
            (List.range df.nrows) geomVals }
  else none

/-! ### `to_file` (`pg_save/export/united.py`) -/

/-- The `crs` argument of `to_file`: absent, a scalar, or the
`{column: crs}` map produced by the query planner. -/
inductive CrsArg where
  | none : CrsArg
  | scalar (c : CrsScalar) : CrsArg
  | dict (m : List (String × CrsScalar)) : CrsArg
deriving DecidableEq, Repr

/-- Which export driver `to_file` dispatched to, with what arguments, and
what that driver wrote (the xlsx driver performs the same value transform
as csv and is not separately modelled). -/
inductive ToFileCall where
  | csvCall (filename : String) (written : List String × List (List String)) : ToFileCall
  | xlsxCall (filename : String) : ToFileCall
  | jsonCall (filename : String) (written : List (List (String × PValue))) : ToFileCall
  | geojsonCall (filename : String) (geometryColumn : String) (crs : CrsScalar)
      (written : Option GeoJsonDoc) : ToFileCall
deriving DecidableEq, Repr

/-- `filename.split(".")[-1]`: the suffix after the last dot (the whole
string when there is none). -/
def lastExt (s : String) : String :=
  ⟨(s.data.reverse.takeWhile fun c => ¬ c = '.').reverse⟩

/-- `"." in filename`. -/
def hasDot (s : String) : Bool :=
  s.data.contains '.'

/-- `geometry_column in crs` / `crs[geometry_column]` on the crs dict. -/
def crsLookup (m : List (String × CrsScalar)) (k : String) : Option CrsScalar :=
  (m.find? fun p => p.1 = k).map Prod.snd

/-- `to_file` (`pg_save/export/united.py`): infer the format from the
filename extension (appending `.csv` and warning when absent or
unrecognized), resolve the GeoJSON CRS argument, default the geometry
column, and dispatch.  Note the order in the geojson branch: the crs dict
is consulted with the *caller-supplied* `geometry_column` (possibly
`None`, which is in no string-keyed dict), and only afterwards is the
column name defaulted to `"geometry"`. -/
def to_file (df : DataFrame) (filename : String) (crs : CrsArg := .none)
    (geometry_column : Option String := none) : ToFileCall :=
  let filename1 := if hasDot filename then filename else filename ++ ".csv"
  let fmt1 := lowerStr (lastExt filename1)
  let recognized := ["csv", "xlsx", "json", "geojson"].contains fmt1
  let filename2 := if recognized then filename1 else filename1 ++ ".csv"
  let fmt2 := if recognized then fmt1 else "csv"
  if fmt2 = "csv" then .csvCall filename2 (to_csv df)
  else if fmt2 = "xlsx" then .xlsxCall filename2
  else if fmt2 = "geojson" then
    let crsRes : CrsScalar :=
      match crs with
      | .none => DEFAULT_CRS
      | .scalar c => c
      | .dict m =>
        match geometry_column with
        | some g =>
          match crsLookup m g with
          | some c => c
          | none => DEFAULT_CRS
        | none => DEFAULT_CRS
    let gc := geometry_column.getD "geometry"
    .geojsonCall filename2 gc crsRes (to_geojson df (.file filename2) gc crsRes)
  else .jsonCall filename2 (to_json df)

/-! ## Claims -/

/-- C1: for every query text whose lower-cased, trailing-semicolon-stripped
form contains a blocklist substring, `select` raises `UnsafeExpressionError`
and sends nothing to the database: the result is the unsafe-expression
error and the executed-SQL trace is empty, for every oracle. -/
theorem claim_C1_unsafe_query_rejected (db : Db) (query : String) (b : Bool)
    (h : ∃ p ∈ stopPhrases, containsSub (lowerStr (stripQuery query)) p = true) :
    ∃ p', select db query b = (.error (.unsafeExpression p'), []) := by
  obtain ⟨p, hp, hc⟩ := h
  have hsome : (findStopPhrase (stripQuery query)).isSome := by
    unfold findStopPhrase
    rw [List.find?_isSome]
    exact ⟨p, hp, hc⟩
  obtain ⟨p', hp'⟩ := Option.isSome_iff_exists.mp hsome
  refine ⟨p', ?_⟩
  unfold select
  simp only [hp']

/-- Witness for C1: `"SELECT 1; DROP TABLE users"` is rejected with an
empty execution trace (the oracle errors on any call, and is never
consulted). -/
theorem claim_C1_witness :
    (∃ p ∈ stopPhrases,
      containsSub (lowerStr (stripQuery "SELECT 1; DROP TABLE users")) p = true) ∧
    ∃ p', select ⟨fun _ _ => .error "never reached"⟩ "SELECT 1; DROP TABLE users" false
        = (.error (.unsafeExpression p'), []) :=
  ⟨⟨";", by decide, by decide⟩,
   claim_C1_unsafe_query_rejected ⟨fun _ _ => .error "never reached"⟩
     "SELECT 1; DROP TABLE users" false ⟨";", by decide, by decide⟩⟩

/-! ### Shape of `beautifyCore` -/

theorem zip_rename_names : ∀ (cols : List Col) (ns : List String),
    cols.length = ns.length →
    ((cols.zip ns).map fun p => (⟨p.2, p.1.dtype, p.1.values⟩ : Col)).map Col.name = ns := by
  intro cols
  induction cols with
  | nil =>
    intro ns h
    cases ns with
    | nil => rfl
    | cons n ns' => simp at h
  | cons c rest ih =>
    intro ns h
    cases ns with
    | nil => simp at h
    | cons n ns' =>
      simp only [List.zip_cons_cons, List.map_cons]
      rw [ih ns' (by simpa using h)]

theorem coerce_replace_names (cols : List Col) :
    (replaceNaNColumns (coerceColumns cols)).map Col.name = cols.map Col.name := by
  unfold replaceNaNColumns coerceColumns
  simp [List.map_map, Function.comp]

theorem beautifyCore_names (df1 : DataFrame) :
    (beautifyCore df1).names = renameColumns df1.names := by
  show (replaceNaNColumns (coerceColumns
      ((df1.cols.zip (renameColumns df1.names)).map
        fun p => (⟨p.2, p.1.dtype, p.1.values⟩ : Col)))).map Col.name = _
  rw [coerce_replace_names, zip_rename_names]
  rw [renameColumns_length]
  simp [DataFrame.names]

/-- C10: whatever the input columns — including a pre-existing `"id_0"`
next to duplicated `"id"` columns — the columns of a successfully
beautified dataframe are pairwise distinct: `rename_func` keeps extending
a generated name while its count says it collides. -/
theorem claim_C10_columns_distinct (df df' : DataFrame)
    (h : beautify_dataframe df = some df') : df'.names.Nodup := by
  unfold beautify_dataframe at h
  cases hr : resetIndexStep df with
  | none => rw [hr] at h; exact absurd h (by simp)
  | some df1 =>
    rw [hr] at h
    injection h with h
    rw [← h, beautifyCore_names]
    exact renameColumns_nodup _

/-- Witness for C10 at the claim's own scenario: duplicated `"id"`
alongside a distinct original `"id_0"`. -/
theorem claim_C10_witness :
    beautify_dataframe
        ⟨1, [⟨"id", "int64", [.vInt 1]⟩, ⟨"id", "int64", [.vInt 2]⟩,
             ⟨"id_0", "int64", [.vInt 3]⟩], rangeIndexVals 1, true⟩
      = some ⟨1, [⟨"id_0_0", "object", [.vInt 1]⟩, ⟨"id_1", "object", [.vInt 2]⟩,
                  ⟨"id_0_1", "object", [.vInt 3]⟩], rangeIndexVals 1, true⟩ ∧
    (DataFrame.names ⟨1, [⟨"id_0_0", "object", [.vInt 1]⟩, ⟨"id_1", "object", [.vInt 2]⟩,
                  ⟨"id_0_1", "object", [.vInt 3]⟩], rangeIndexVals 1, true⟩).Nodup := by
  refine ⟨by decide, ?_⟩
  exact claim_C10_columns_distinct
    ⟨1, [⟨"id", "int64", [.vInt 1]⟩, ⟨"id", "int64", [.vInt 2]⟩,
         ⟨"id_0", "int64", [.vInt 3]⟩], rangeIndexVals 1, true⟩
    ⟨1, [⟨"id_0_0", "object", [.vInt 1]⟩, ⟨"id_1", "object", [.vInt 2]⟩,
         ⟨"id_0_1", "object", [.vInt 3]⟩], rangeIndexVals 1, true⟩
    (by decide)

/-- Counterexample to C2 as stated: on two columns both named `"id"`,
`beautify_dataframe` yields columns `["id_0", "id_1"]`, not the claimed
`["id", "id_0"]` — the `while` loop of `rename_func` never decrements
`columns_name_counts["id"]`, so the *first* occurrence is renamed too. -/
theorem claim_C2_counterexample :
    (beautify_dataframe
        ⟨1, [⟨"id", "int64", [.vInt 1]⟩, ⟨"id", "int64", [.vInt 2]⟩],
         rangeIndexVals 1, true⟩).map DataFrame.names = some ["id_0", "id_1"] ∧
    (beautify_dataframe
        ⟨1, [⟨"id", "int64", [.vInt 1]⟩, ⟨"id", "int64", [.vInt 2]⟩],
         rangeIndexVals 1, true⟩).map DataFrame.names ≠ some ["id", "id_0"] := by
  constructor
  · decide
  · decide

/-- C2 (amended): for every result set (trivial index) with exactly two
columns both named `"id"`, the beautified columns are `["id_0", "id_1"]`:
*every* occurrence of a duplicated name is suffixed with the incrementing
counter, in order of appearance — the first occurrence included. -/
theorem claim_C2_amended (df df' : DataFrame)
    (hidx : df.indexIsRange = true ∧ df.index = rangeIndexVals df.nrows)
    (hnames : df.names = ["id", "id"])
    (h : beautify_dataframe df = some df') :
    df'.names = ["id_0", "id_1"] := by
  unfold beautify_dataframe resetIndexStep at h
  rw [if_pos ⟨hidx.1, hidx.2⟩] at h
  injection h with h
  rw [← h, beautifyCore_names, hnames]
  decide

/-- Witness for the amended C2 on a concrete two-column frame. -/
theorem claim_C2_witness :
    ((⟨1, [⟨"id", "int64", [.vInt 7]⟩, ⟨"id", "int64", [.vInt 8]⟩],
       rangeIndexVals 1, true⟩ : DataFrame).indexIsRange = true ∧
     (⟨1, [⟨"id", "int64", [.vInt 7]⟩, ⟨"id", "int64", [.vInt 8]⟩],
       rangeIndexVals 1, true⟩ : DataFrame).names = ["id", "id"]) ∧
    DataFrame.names ⟨1, [⟨"id_0", "object", [.vInt 7]⟩, ⟨"id_1", "object", [.vInt 8]⟩],
       rangeIndexVals 1, true⟩ = ["id_0", "id_1"] := by
  refine ⟨⟨rfl, by decide⟩, ?_⟩
  exact claim_C2_amended
    ⟨1, [⟨"id", "int64", [.vInt 7]⟩, ⟨"id", "int64", [.vInt 8]⟩], rangeIndexVals 1, true⟩
    ⟨1, [⟨"id_0", "object", [.vInt 7]⟩, ⟨"id_1", "object", [.vInt 8]⟩], rangeIndexVals 1, true⟩
    ⟨rfl, by decide⟩ (by decide) (by decide)

/-- C3: exporting to GeoJSON when the designated geometry column is absent
writes nothing (`none`: the guard logs and returns before building any
document) and, `to_geojson` being a total function, raises nothing. -/
theorem claim_C3_geometry_missing_no_write (df : DataFrame) (dst : Dest)
    (gcol : String) (crs : CrsScalar) (h : gcol ∉ df.names) :
    to_geojson df dst gcol crs = none := by
  unfold to_geojson
  rw [if_neg h]

/-- Witness for C3: a one-column frame without `"geom"`. -/
theorem claim_C3_witness :
    ("geom" ∉ DataFrame.names ⟨1, [⟨"a", "int64", [.vInt 1]⟩], rangeIndexVals 1, true⟩) ∧
    to_geojson ⟨1, [⟨"a", "int64", [.vInt 1]⟩], rangeIndexVals 1, true⟩
      (.file "out.geojson") "geom" DEFAULT_CRS = none :=
  ⟨by decide,
   claim_C3_geometry_missing_no_write _ (.file "out.geojson") "geom" DEFAULT_CRS (by decide)⟩

/-! ### Extension fallback (`to_file`) -/

theorem lastExt_append_csv (s : String) : lastExt (s ++ ".csv") = "csv" := by
  unfold lastExt
  have hd : (s ++ ".csv").data = s.data ++ ['.', 'c', 's', 'v'] := by
    rw [String.data_append]
  rw [hd, List.reverse_append]
  have hrev : (['.', 'c', 's', 'v'] : List Char).reverse = ['v', 's', 'c', '.'] := by decide
  rw [hrev]
  show String.mk ((['v', 's', 'c', '.'] ++ s.data.reverse).takeWhile fun c => ¬ c = '.').reverse = _
  rw [List.cons_append, List.takeWhile_cons, if_pos (by decide)]
  rw [List.cons_append, List.takeWhile_cons, if_pos (by decide)]
  rw [List.cons_append, List.takeWhile_cons, if_pos (by decide)]
  rw [List.cons_append, List.takeWhile_cons, if_neg (by decide)]
  rfl

/-- C9: a destination with no extension, or an unrecognized one, never
fails: `to_file` appends `.csv` and performs the CSV write. -/
theorem claim_C9_unknown_extension_csv (df : DataFrame) (filename : String)
    (crs : CrsArg) (gc : Option String)
    (h : hasDot filename = false ∨
      (["csv", "xlsx", "json", "geojson"].contains (lowerStr (lastExt filename))) = false) :
    to_file df filename crs gc = .csvCall (filename ++ ".csv") (to_csv df) := by
  unfold to_file
  by_cases hd : hasDot filename = true
  · have hrec : (["csv", "xlsx", "json", "geojson"].contains
        (lowerStr (lastExt filename))) = false := by
      rcases h with h | h
      · rw [hd] at h; exact absurd h (by simp)
      · exact h
    simp only [hd, if_true, hrec, Bool.false_eq_true, if_false, if_pos rfl]
  · have hd' : hasDot filename = false := by
      revert hd; cases hasDot filename <;> simp
    have hext : lowerStr (lastExt (filename ++ ".csv")) = "csv" := by
      rw [lastExt_append_csv]; decide
    simp only [hd', Bool.false_eq_true, if_false, hext]
    simp

/-- Witness for C9: `"out.unknownext"`. -/
theorem claim_C9_witness :
    (["csv", "xlsx", "json", "geojson"].contains (lowerStr (lastExt "out.unknownext"))) = false ∧
    to_file ⟨0, [], [], true⟩ "out.unknownext" .none none
      = .csvCall "out.unknownext.csv" (to_csv ⟨0, [], [], true⟩) := by
  refine ⟨by decide, ?_⟩
  have := claim_C9_unknown_extension_csv ⟨0, [], [], true⟩ "out.unknownext" .none none
    (Or.inr (by decide))
  simpa using this

/-! ### Idempotence of `beautify_dataframe` -/

theorem transform_val_idem (v : PValue) :
    nanToNone (coerceVal (nanToNone (coerceVal v))) = nanToNone (coerceVal v) := by
  cases v with
  | vFloat q => by_cases h : q.den = 1 <;> simp [coerceVal, nanToNone, h]
  | vNaN => rfl
  | vNone => rfl
  | vBool b => rfl
  | vInt n => rfl
  | vStr s => rfl

theorem rnc_idem (cols : List Col) :
    replaceNaNColumns (coerceColumns (replaceNaNColumns (coerceColumns cols)))
      = replaceNaNColumns (coerceColumns cols) := by
  unfold replaceNaNColumns coerceColumns
  simp only [List.map_map]
  apply List.map_congr_left
  intro c _
  simp only [Function.comp]
  simp only [List.map_map]
  congr 1
  apply List.map_congr_left
  intro v _
  exact transform_val_idem v

theorem zip_self_cols (cols : List Col) :
    ((cols.zip (cols.map Col.name)).map fun p => (⟨p.2, p.1.dtype, p.1.values⟩ : Col))
      = cols := by
  induction cols with
  | nil => rfl
  | cons c rest ih =>
    obtain ⟨n, d, v⟩ := c
    simp [ih]

theorem resetIndexStep_range (df df1 : DataFrame) (h : resetIndexStep df = some df1) :
    df1.indexIsRange = true ∧ df1.index = rangeIndexVals df1.nrows := by
  unfold resetIndexStep at h
  split_ifs at h with h1 h2
  · injection h with h
    rw [← h]
    exact ⟨h1.1, h1.2⟩
  · injection h with h
    rw [← h]
    exact ⟨rfl, rfl⟩

theorem beautifyCore_idem (df1 : DataFrame) :
    beautifyCore (beautifyCore df1) = beautifyCore df1 := by
  have hnd : (beautifyCore df1).names.Nodup := by
    rw [beautifyCore_names]; exact renameColumns_nodup _
  have h1 : renameColumns (beautifyCore df1).names = (beautifyCore df1).names :=
    renameColumns_id _ hnd
  show (⟨(beautifyCore df1).nrows,
      replaceNaNColumns (coerceColumns
        (((beautifyCore df1).cols.zip (renameColumns (beautifyCore df1).names)).map
          fun p => (⟨p.2, p.1.dtype, p.1.values⟩ : Col))),
      (beautifyCore df1).index, (beautifyCore df1).indexIsRange⟩ : DataFrame) = _
  rw [h1]
  have h2 : (beautifyCore df1).names = (beautifyCore df1).cols.map Col.name := rfl
  rw [h2, zip_self_cols]
  have h3 : (beautifyCore df1).cols =
      replaceNaNColumns (coerceColumns
        ((df1.cols.zip (renameColumns df1.names)).map
          fun p => (⟨p.2, p.1.dtype, p.1.values⟩ : Col))) := rfl
  rw [h3, rnc_idem, ← h3]

/-- C4: on result sets with no duplicate column names, `beautify_dataframe`
is idempotent — a successfully beautified frame beautifies to itself. -/
theorem claim_C4_normalize_idempotent (df df' : DataFrame)
    (_hnd : df.names.Nodup) (h : beautify_dataframe df = some df') :
    beautify_dataframe df' = some df' := by
  unfold beautify_dataframe at h ⊢
  cases hr : resetIndexStep df with
  | none => rw [hr] at h; simp at h
  | some df1 =>
    rw [hr] at h
    injection h with h
    have hspec := resetIndexStep_range df df1 hr
    have hidx : df'.indexIsRange = true := by rw [← h]; exact hspec.1
    have hival : df'.index = rangeIndexVals df'.nrows := by rw [← h]; exact hspec.2
    have hreset' : resetIndexStep df' = some df' := by
      unfold resetIndexStep
      rw [if_pos ⟨hidx, hival⟩]
    rw [hreset', ← h]
    show some (beautifyCore (beautifyCore df1)) = some (beautifyCore df1)
    rw [beautifyCore_idem]

/-- Witness for C4 on a one-column frame holding a whole float and a NaN. -/
theorem claim_C4_witness :
    (DataFrame.names ⟨2, [⟨"a", "float64", [.vFloat 3, .vNaN]⟩],
      rangeIndexVals 2, true⟩).Nodup ∧
    beautify_dataframe ⟨2, [⟨"a", "float64", [.vFloat 3, .vNaN]⟩], rangeIndexVals 2, true⟩
      = some ⟨2, [⟨"a", "object", [.vInt 3, .vNone]⟩], rangeIndexVals 2, true⟩ ∧
    beautify_dataframe ⟨2, [⟨"a", "object", [.vInt 3, .vNone]⟩], rangeIndexVals 2, true⟩
      = some ⟨2, [⟨"a", "object", [.vInt 3, .vNone]⟩], rangeIndexVals 2, true⟩ := by
  refine ⟨by decide, by decide, ?_⟩
  exact claim_C4_normalize_idempotent
    ⟨2, [⟨"a", "float64", [.vFloat 3, .vNaN]⟩], rangeIndexVals 2, true⟩
    ⟨2, [⟨"a", "object", [.vInt 3, .vNone]⟩], rangeIndexVals 2, true⟩
    (by decide) (by decide)

/-! ### CRS resolution of `to_file` -/

/-- Counterexample to C7 as stated: with the planner-produced CRS map
`{"geometry": 3857}` and no caller-supplied geometry column, the claim
says the map entry (3857) is used "including when the geometry column name
itself was defaulted to geometry" — but `to_file` consults the map with
the still-unset column *before* defaulting it, misses, and falls back to
EPSG:4326. -/
theorem claim_C7_counterexample :
    to_file ⟨0, [⟨"geometry", "object", []⟩], [], true⟩ "o.geojson"
        (.dict [("geometry", .int 3857)]) none
      = .geojsonCall "o.geojson" "geometry" (.int 4326)
          (to_geojson ⟨0, [⟨"geometry", "object", []⟩], [], true⟩
            (.file "o.geojson") "geometry" (.int 4326))
    ∧ (CrsScalar.int 4326) ≠ (CrsScalar.int 3857) := by
  exact ⟨by decide, by decide⟩

/-- The CRS fallback chain exactly as the amended claim words it: the map
entry only for a caller-supplied geometry column present in the map, else
the caller-supplied scalar, else EPSG:4326. -/
def resolveCrs (crs : CrsArg) (gc : Option String) : CrsScalar :=
  match crs, gc with
  | .scalar c, _ => c
  | .dict m, some g => (crsLookup m g).getD DEFAULT_CRS
  | _, _ => DEFAULT_CRS

/-- C7 (amended): for a `.geojson` destination the embedded CRS is the CRS
map's entry for the geometry column only when the caller *supplied* that
column name and the map contains it; when the geometry column is unset
(and therefore defaulted to `"geometry"` afterwards) or missing from the
map, the default EPSG:4326 is used; a scalar argument is used as-is; an
absent argument falls back to EPSG:4326. -/
theorem claim_C7_amended (df : DataFrame) (filename : String) (crs : CrsArg)
    (gc : Option String)
    (hdot : hasDot filename = true)
    (hext : lowerStr (lastExt filename) = "geojson") :
    to_file df filename crs gc =
      .geojsonCall filename (gc.getD "geometry") (resolveCrs crs gc)
        (to_geojson df (.file filename) (gc.getD "geometry") (resolveCrs crs gc)) := by
  unfold to_file
  rw [hdot]
  simp only [if_true, hext]
  have hrec : (["csv", "xlsx", "json", "geojson"].contains "geojson") = true := by decide
  simp only [hrec, if_true]
  have h1 : ¬ ("geojson" : String) = "csv" := by decide
  have h2 : ¬ ("geojson" : String) = "xlsx" := by decide
  simp only [if_neg h1, if_neg h2, if_pos rfl]
  cases crs with
  | none => rfl
  | scalar c => rfl
  | dict m =>
    cases gc with
    | none => rfl
    | some g =>
      show ToFileCall.geojsonCall filename g
          (match crsLookup m g with
           | some c => c
           | none => DEFAULT_CRS)
          (to_geojson df (.file filename) g
            (match crsLookup m g with
             | some c => c
             | none => DEFAULT_CRS)) = _
      have : (match crsLookup m g with
           | some c => c
           | none => DEFAULT_CRS) = resolveCrs (.dict m) (some g) := by
        show _ = (crsLookup m g).getD DEFAULT_CRS
        cases crsLookup m g <;> rfl
      rw [this]
      rfl

/-- Witness for the amended C7: a caller-supplied geometry column hits the
map. -/
theorem claim_C7_witness :
    hasDot "x.geojson" = true ∧ lowerStr (lastExt "x.geojson") = "geojson" ∧
    to_file ⟨0, [⟨"g", "object", []⟩], [], true⟩ "x.geojson"
        (.dict [("g", .int 3857)]) (some "g")
      = .geojsonCall "x.geojson" "g" (.int 3857)
          (to_geojson ⟨0, [⟨"g", "object", []⟩], [], true⟩
            (.file "x.geojson") "g" (.int 3857)) := by
  refine ⟨by decide, by decide, ?_⟩
  have := claim_C7_amended ⟨0, [⟨"g", "object", []⟩], [], true⟩ "x.geojson"
    (.dict [("g", .int 3857)]) (some "g") (by decide) (by decide)
  simpa using this

/-! ### The projection list built by `get_table` -/

theorem except_map_cons_ok (e : Except String (List String × Option (List (String × PValue))))
    (pre : String) (sel : List String) (crs' : Option (List (String × PValue)))
    (h : Except.map (fun p => (pre :: p.1, p.2)) e = .ok (sel, crs')) :
    ∃ sel1, e = .ok (sel1, crs') ∧ sel = pre :: sel1 := by
  cases e with
  | error e => simp [Except.map] at h
  | ok p =>
    obtain ⟨sel1, c1⟩ := p
    simp only [Except.map] at h
    injection h with h
    have hsnd : c1 = crs' := congrArg Prod.snd h
    have hfst : pre :: sel1 = sel := congrArg Prod.fst h
    exact ⟨sel1, by rw [hsnd], hfst.symm⟩

theorem tableLoop_sel (db : Db) (table : String) (gts : List PValue) (uc : Bool) :
    ∀ (descs : List ColDesc) (crs : Option (List (String × PValue)))
      (sel : List String) (crs' : Option (List (String × PValue))),
      (tableLoop db table gts uc descs crs).1 = .ok (sel, crs') →
      sel = descs.map (projection gts uc) := by
  intro descs
  induction descs with
  | nil =>
    intro crs sel crs' h
    have h2 : (Except.ok (([] : List String), crs) :
        Except String (List String × Option (List (String × PValue)))) = .ok (sel, crs') := h
    injection h2 with h2
    exact (congrArg Prod.fst h2).symm
  | cons d rest ih =>
    intro crs sel crs' h
    rw [tableLoop] at h
    by_cases hg : gts.contains d.type_code
    · rw [if_pos hg] at h
      split at h
      · simp at h
      · split at h
        · have h2 : Except.map (fun p => (projection gts uc d :: p.1, p.2))
              (tableLoop db table gts uc rest crs).1 = .ok (sel, crs') := h
          obtain ⟨sel1, hrec, hsel⟩ := except_map_cons_ok _ _ _ _ h2
          rw [hsel, List.map_cons, ih crs sel1 crs' hrec]
        · split at h
          · simp at h
          · rename_i v _
            have h2 : Except.map (fun p => (projection gts uc d :: p.1, p.2))
                (tableLoop db table gts uc rest
                  (some (pyDictUpsert (crs.getD []) d.name v))).1 = .ok (sel, crs') := h
            obtain ⟨sel1, hrec, hsel⟩ := except_map_cons_ok _ _ _ _ h2
            rw [hsel, List.map_cons, ih _ sel1 crs' hrec]
    · rw [if_neg hg] at h
      have h2 : Except.map (fun p => (d.name :: p.1, p.2))
          (tableLoop db table gts uc rest crs).1 = .ok (sel, crs') := h
      obtain ⟨sel1, hrec, hsel⟩ := except_map_cons_ok _ _ _ _ h2
      rw [hsel, List.map_cons, ih crs sel1 crs' hrec]
      have hproj : projection gts uc d = d.name := by
        unfold projection
        rw [if_neg hg]
      rw [hproj]

/-- C5: `get_table` projects every non-spatial column as-is and rewrites
every spatial column to `ST_AsGeoJSON(col)::jsonb` (of `ST_Centroid(col)`
in centroid mode); the SELECT text it finally executes against the source
is exactly the comma-joined list of those projections.  (That the values
coming back are GeoJSON objects — points under centroids — is the SQL
engine's contract for `ST_AsGeoJSON`/`ST_Centroid`, outside this model.) -/
theorem claim_C5_projection (db : Db) (table : String) (uc : Bool)
    (out : QDF × Option (List (String × PValue))) (trace : List String)
    (oidRes probeRes : QueryResult)
    (hoid : db.exec geomOidSql geomOidParams = .ok oidRes)
    (hprobe : db.exec (probeSql table) [] = .ok probeRes)
    (hok : get_table db table uc = (.ok out, trace)) :
    ("SELECT " ++ commaJoin (probeRes.description.map
        (projection (oidRes.rows.filterMap List.head?) uc)) ++ " FROM " ++ table) ∈ trace
    ∧ ∀ d ∈ probeRes.description,
        ((oidRes.rows.filterMap List.head?).contains d.type_code = false →
          projection (oidRes.rows.filterMap List.head?) uc d = d.name)
      ∧ ((oidRes.rows.filterMap List.head?).contains d.type_code = true → uc = true →
          projection (oidRes.rows.filterMap List.head?) uc d =
            "ST_AsGeoJSON(ST_Centroid(\"" ++ d.name ++ "\"))::jsonb \"" ++ d.name ++ "\"")
      ∧ ((oidRes.rows.filterMap List.head?).contains d.type_code = true → uc = false →
          projection (oidRes.rows.filterMap List.head?) uc d =
            "ST_AsGeoJSON(\"" ++ d.name ++ "\")::jsonb \"" ++ d.name ++ "\"") := by
  constructor
  · unfold get_table at hok
    rw [hoid] at hok
    simp only [] at hok
    rw [hprobe] at hok
    simp only [] at hok
    cases hloop : (tableLoop db table (oidRes.rows.filterMap List.head?) uc
        probeRes.description none).1 with
    | error e => rw [hloop] at hok; simp at hok
    | ok p =>
      obtain ⟨sel, crs⟩ := p
      rw [hloop] at hok
      simp only [] at hok
      cases hfin : db.exec ("SELECT " ++ commaJoin sel ++ " FROM " ++ table) [] with
      | error e =>
        rw [hfin] at hok
        have hfst : (Except.error e :
            Except String (QDF × Option (List (String × PValue)))) = .ok out :=
          congrArg Prod.fst hok
        simp at hfst
      | ok res =>
        rw [hfin] at hok
        have htr := (congrArg Prod.snd hok).symm
        simp only [] at htr
        rw [htr, tableLoop_sel db table _ uc probeRes.description none sel crs hloop]
        simp
  · intro d _
    refine ⟨?_, ?_, ?_⟩
    · intro hf
      unfold projection
      rw [if_neg (by rw [hf]; simp)]
    · intro ht hu
      unfold projection
      rw [if_pos ht, hu, if_pos rfl]
    · intro ht hu
      unfold projection
      rw [if_pos ht, hu]
      rfl

/-- A concrete oracle for the C5 witness: a table `t` with an `id` column
(oid 23) and a spatial `geom` column (oid 100, SRID 4326). -/
def c5db : Db := ⟨fun s _ =>
  if s = geomOidSql then .ok ⟨[], [[.vInt 100], [.vInt 101]]⟩
  else if s = probeSql "t" then .ok ⟨[⟨"id", .vInt 23⟩, ⟨"geom", .vInt 100⟩], []⟩
  else if s = sridTableSql "geom" "t" then .ok ⟨[⟨"st_srid", .vInt 23⟩], [[.vInt 4326]]⟩
  else if s = "SELECT id, ST_AsGeoJSON(\"geom\")::jsonb \"geom\" FROM t" then
    .ok ⟨[⟨"id", .vInt 23⟩, ⟨"geom", .vInt 3802⟩], [[.vInt 1, .vStr "{}"]]⟩
  else .error "unexpected"⟩

/-- Witness for C5: on `c5db`, `get_table` probes, rewrites only the
spatial column, and the rewritten SELECT is in the executed trace. -/
theorem claim_C5_witness :
    get_table c5db "t" false
      = (.ok (⟨["id", "geom"], [[.vInt 1, .vStr "{}"]]⟩, some [("geom", .vInt 4326)]),
         [geomOidSql, probeSql "t", sridTableSql "geom" "t",
          "SELECT id, ST_AsGeoJSON(\"geom\")::jsonb \"geom\" FROM t"]) ∧
    ("SELECT " ++ commaJoin ([⟨"id", .vInt 23⟩, ⟨"geom", .vInt 100⟩].map
        (projection (([[PValue.vInt 100], [PValue.vInt 101]]).filterMap List.head?) false))
      ++ " FROM " ++ "t")
      ∈ [geomOidSql, probeSql "t", sridTableSql "geom" "t",
         "SELECT id, ST_AsGeoJSON(\"geom\")::jsonb \"geom\" FROM t"] := by
  constructor
  · rfl
  · have h := claim_C5_projection c5db "t" false
      (⟨["id", "geom"], [[.vInt 1, .vStr "{}"]]⟩, some [("geom", .vInt 4326)])
      [geomOidSql, probeSql "t", sridTableSql "geom" "t",
       "SELECT id, ST_AsGeoJSON(\"geom\")::jsonb \"geom\" FROM t"]
      ⟨[], [[.vInt 100], [.vInt 101]]⟩ ⟨[⟨"id", .vInt 23⟩, ⟨"geom", .vInt 100⟩], []⟩
      rfl rfl rfl
    exact h.1

/-! ### Shape of the GeoJSON document -/

theorem find?_isSome_of_mem_names (cols : List Col) (gcol : String)
    (h : gcol ∈ cols.map Col.name) :
    ∃ gc, cols.find? (fun c => c.name = gcol) = some gc ∧ gc.name = gcol := by
  obtain ⟨c, hc, hname⟩ := List.mem_map.mp h
  have hsome : (cols.find? fun c => c.name = gcol).isSome := by
    rw [List.find?_isSome]
    exact ⟨c, hc, by simp [hname]⟩
  obtain ⟨gc, hgc⟩ := Option.isSome_iff_exists.mp hsome
  refine ⟨gc, hgc, ?_⟩
  have := List.find?_some hgc
  simpa using this

/-- C6: every GeoJSON document `to_geojson` completes has type
`FeatureCollection`, carries the destination filename as `name` exactly
when writing to a named file, a `crs` of type `name` whose identifier is
the `urn:ogc:def:crs:EPSG::<code>` form for an integer CRS and the raw
string otherwise, and one feature per row — each of type `Feature`, with
`properties` the (post-pipeline: non-geometry, serializable, renamed,
coerced) columns of that row and `geometry` the row's untouched value from
the geometry column. -/
theorem claim_C6_geojson_shape (df : DataFrame) (dst : Dest) (gcol : String)
    (crs : CrsScalar) (doc : GeoJsonDoc)
    (hwf : df.WF)
    (h : to_geojson df dst gcol crs = some doc) :
    doc.gtype = "FeatureCollection"
    ∧ doc.name = dst.docName
    ∧ doc.crsType = "name"
    ∧ doc.crsName = crs.render
    ∧ doc.features.length = df.nrows
    ∧ ∃ gc, df.cols.find? (fun c => c.name = gcol) = some gc ∧ gc.name = gcol ∧
        ∀ i, i < df.nrows →
          doc.features[i]? = some
            ⟨"Feature",
             pyDict ((geojsonProcessCols df gcol).map fun c => (c.name, c.values.getD i .vNone)),
             gc.values.getD i .vNone⟩ := by
  unfold to_geojson at h
  by_cases hmem : gcol ∈ df.names
  · rw [if_pos hmem] at h
    obtain ⟨gc, hgc, hgname⟩ := find?_isSome_of_mem_names df.cols gcol hmem
    have hglen : gc.values.length = df.nrows :=
      hwf.1 gc (List.mem_of_find?_eq_some hgc)
    rw [hgc] at h
    injection h with h
    subst h
    refine ⟨rfl, rfl, rfl, rfl, ?_, gc, hgc, hgname, ?_⟩
    · show (List.zipWith _ (List.range df.nrows) (((some gc).map Col.values).getD [])).length = df.nrows
      simp only [Option.map, Option.getD]
      rw [List.length_zipWith, List.length_range]
      simp [hglen]
    · intro i hi
      show (List.zipWith _ (List.range df.nrows) gc.values)[i]? = _
      rw [List.getElem?_zipWith]
      rw [List.getElem?_range hi]
      have hiv : i < gc.values.length := by omega
      rw [List.getElem?_eq_getElem hiv]
      rw [List.getD_eq_getElem?_getD, List.getElem?_eq_getElem hiv]
      rfl
  · rw [if_neg hmem] at h
    exact absurd h (by simp)

/-- Witness for C6: a two-column frame (one int column, one geometry). -/
theorem claim_C6_witness :
    (DataFrame.WF ⟨1, [⟨"a", "int64", [.vInt 5]⟩, ⟨"geometry", "object", [.vStr "pt"]⟩],
       rangeIndexVals 1, true⟩) ∧
    (∃ doc, to_geojson ⟨1, [⟨"a", "int64", [.vInt 5]⟩, ⟨"geometry", "object", [.vStr "pt"]⟩],
       rangeIndexVals 1, true⟩ (.file "o.geojson") "geometry" (.int 4326) = some doc ∧
      doc.gtype = "FeatureCollection" ∧ doc.name = some "o.geojson" ∧
      doc.crsType = "name" ∧ doc.crsName = "urn:ogc:def:crs:EPSG::4326" ∧
      doc.features.length = 1) := by
  constructor
  · exact ⟨by decide, rfl⟩
  · obtain ⟨doc, hdoc⟩ : ∃ doc,
        to_geojson ⟨1, [⟨"a", "int64", [.vInt 5]⟩, ⟨"geometry", "object", [.vStr "pt"]⟩],
          rangeIndexVals 1, true⟩ (.file "o.geojson") "geometry" (.int 4326) = some doc := by
      exact ⟨_, rfl⟩
    have hwf : DataFrame.WF ⟨1, [⟨"a", "int64", [.vInt 5]⟩, ⟨"geometry", "object", [.vStr "pt"]⟩],
        rangeIndexVals 1, true⟩ := ⟨by decide, rfl⟩
    have h := claim_C6_geojson_shape _ _ _ _ doc hwf hdoc
    exact ⟨doc, hdoc, h.1, h.2.1.trans rfl, h.2.2.1, h.2.2.2.1.trans (by decide), h.2.2.2.2.1⟩

/-! ### Decimal rendering never contains a dot -/

theorem digitChar_ne_dot (k : Nat) : Nat.digitChar k ≠ '.' := by
  by_cases h : k < 16
  · interval_cases k <;> decide
  · have h16 : Nat.digitChar k = '*' := by
      unfold Nat.digitChar
      iterate 16 rw [if_neg (by omega)]
    rw [h16]
    decide

theorem toDigitsCore_ne_dot : ∀ (fuel n : Nat) (acc : List Char),
    (∀ c ∈ acc, c ≠ '.') → ∀ c ∈ Nat.toDigitsCore 10 fuel n acc, c ≠ '.' := by
  intro fuel
  induction fuel with
  | zero => intro n acc hacc c hc; exact hacc c hc
  | succ f ih =>
    intro n acc hacc c hc
    simp only [Nat.toDigitsCore] at hc
    by_cases h : n / 10 = 0
    · rw [if_pos h] at hc
      rcases List.mem_cons.mp hc with hc | hc
      · rw [hc]; exact digitChar_ne_dot _
      · exact hacc c hc
    · rw [if_neg h] at hc
      refine ih (n / 10) (Nat.digitChar (n % 10) :: acc) ?_ c hc
      intro c' hc'
      rcases List.mem_cons.mp hc' with hh | hh
      · rw [hh]; exact digitChar_ne_dot _
      · exact hacc c' hh

theorem natRepr_ne_dot (n : Nat) : ∀ c ∈ (Nat.repr n).data, c ≠ '.' := by
  intro c hc
  have hdata : (Nat.repr n).data = Nat.toDigitsCore 10 (n + 1) n [] := rfl
  rw [hdata] at hc
  exact toDigitsCore_ne_dot (n + 1) n [] (by simp) c hc

theorem intRepr_ne_dot (i : Int) : ∀ c ∈ (Int.repr i).data, c ≠ '.' := by
  cases i with
  | ofNat m => intro c hc; exact natRepr_ne_dot m c hc
  | negSucc m =>
    intro c hc
    have hdata : (Int.repr (Int.negSucc m)).data = '-' :: (Nat.repr (m + 1)).data := by
      show (("-" : String) ++ Nat.repr (m + 1)).data = _
      rw [String.data_append]
      rfl
    rw [hdata] at hc
    rcases List.mem_cons.mp hc with hc | hc
    · rw [hc]; decide
    · exact natRepr_ne_dot _ c hc

/-! ### The value transform on whole floats and NaN -/

theorem transform_whole_or_nan (v : PValue)
    (hv : (∃ q, v = PValue.vFloat q ∧ q.den = 1) ∨ v = .vNaN) :
    (∃ n, nanToNone (coerceVal v) = .vInt n) ∨ nanToNone (coerceVal v) = .vNone := by
  rcases hv with ⟨q, hq, hden⟩ | hnan
  · subst hq
    exact Or.inl ⟨q.num, by simp [coerceVal, hden, nanToNone]⟩
  · subst hnan
    exact Or.inr rfl

theorem csvCell_int_or_none (w : PValue)
    (h : (∃ n, w = PValue.vInt n) ∨ w = .vNone) :
    ∀ ch ∈ (csvCell w).data, ch ≠ '.' := by
  rcases h with ⟨n, hn⟩ | hn <;> subst hn
  · intro ch hch
    exact intRepr_ne_dot n ch hch
  · intro ch hch
    simp [csvCell] at hch

theorem transform_clean (w : PValue) :
    nanToNone (coerceVal w) ≠ .vNaN ∧
      ∀ q, nanToNone (coerceVal w) = .vFloat q → q.den ≠ 1 := by
  cases w with
  | vFloat q =>
    by_cases h : q.den = 1
    · simp [coerceVal, nanToNone, h]
    · refine ⟨by simp [coerceVal, nanToNone, h], ?_⟩
      intro q' hq'
      simp [coerceVal, nanToNone, h] at hq'
      rw [← hq']
      exact h
  | vNaN => exact ⟨by simp [coerceVal, nanToNone], by simp [coerceVal, nanToNone]⟩
  | vNone => exact ⟨by simp [coerceVal, nanToNone], by simp [coerceVal, nanToNone]⟩
  | vBool b => exact ⟨by simp [coerceVal, nanToNone], by simp [coerceVal, nanToNone]⟩
  | vInt n => exact ⟨by simp [coerceVal, nanToNone], by simp [coerceVal, nanToNone]⟩
  | vStr s => exact ⟨by simp [coerceVal, nanToNone], by simp [coerceVal, nanToNone]⟩

/-! ### A serializable column survives the json pipeline -/

theorem renameOccAux_survives (t : String) (c : Col) :
    ∀ (cols : List Col) (k : Nat), c ∈ cols →
    ∃ c', c' ∈ renameOccAux t k cols ∧ c'.values = c.values ∧ c'.dtype = c.dtype := by
  intro cols
  induction cols with
  | nil => intro k h; simp at h
  | cons d rest ih =>
    intro k hc
    unfold renameOccAux
    by_cases hd : d.name = t
    · rw [if_pos hd]
      rcases List.mem_cons.mp hc with h | h
      · exact ⟨⟨t ++ "_" ++ Nat.repr k, d.dtype, d.values⟩, List.mem_cons_self _ _,
          by rw [h], by rw [h]⟩
      · obtain ⟨c', h1, h2, h3⟩ := ih (k + 1) h
        exact ⟨c', List.mem_cons_of_mem _ h1, h2, h3⟩
    · rw [if_neg hd]
      rcases List.mem_cons.mp hc with h | h
      · exact ⟨d, List.mem_cons_self _ _, by rw [h], by rw [h]⟩
      · obtain ⟨c', h1, h2, h3⟩ := ih k h
        exact ⟨c', List.mem_cons_of_mem _ h1, h2, h3⟩

theorem dropNonSerializable_survives (cols : List Col) (nm : String) (c : Col)
    (hc : c ∈ cols) (hd : serializable_types.contains c.dtype = true)
    (hcnt : c.name = nm → countName cols nm = 1) :
    c ∈ dropNonSerializable cols nm := by
  unfold dropNonSerializable
  split
  case h_2 => exact hc
  case h_1 c0 hf =>
    split_ifs with hser
    · exact hc
    · by_cases hcn : c.name = nm
      · exfalso
        have h1 : countName cols nm = 1 := hcnt hcn
        have hc0mem : c0 ∈ cols := List.mem_of_find?_eq_some hf
        have hc0n : c0.name = nm := by simpa using List.find?_some hf
        have hcf : c ∈ cols.filter (fun c' => c'.name = nm) :=
          List.mem_filter.mpr ⟨hc, by simp [hcn]⟩
        have hc0f : c0 ∈ cols.filter (fun c' => c'.name = nm) :=
          List.mem_filter.mpr ⟨hc0mem, by simp [hc0n]⟩
        unfold countName at h1
        obtain ⟨x, hx⟩ := List.length_eq_one.mp h1
        rw [hx] at hcf hc0f
        simp at hcf hc0f
        rw [← hcf] at hc0f
        rw [hc0f] at hser
        exact hser hd
      · exact List.mem_filter.mpr ⟨hc, by simp [hcn]⟩

theorem jsonSetStep_survives (cols : List Col) (n : String) (c : Col)
    (hc : c ∈ cols) (hd : serializable_types.contains c.dtype = true) :
    ∃ c', c' ∈ jsonSetStep cols n ∧ c'.values = c.values ∧ c'.dtype = c.dtype := by
  unfold jsonSetStep
  by_cases h1 : 1 < countName cols n
  · rw [if_pos h1]
    exact renameOccAux_survives n c cols 0 hc
  · rw [if_neg h1]
    by_cases h2 : countName cols n = 1
    · rw [if_pos h2]
      exact ⟨c, dropNonSerializable_survives cols n c hc hd (fun _ => h2), rfl, rfl⟩
    · rw [if_neg h2]
      exact ⟨c, hc, rfl, rfl⟩

theorem foldl_jsonSetStep_survives : ∀ (names : List String) (cols : List Col) (c : Col),
    c ∈ cols → serializable_types.contains c.dtype = true →
    ∃ c', c' ∈ names.foldl jsonSetStep cols ∧ c'.values = c.values ∧ c'.dtype = c.dtype := by
  intro names
  induction names with
  | nil => intro cols c hc _; exact ⟨c, hc, rfl, rfl⟩
  | cons n rest ih =>
    intro cols c hc hd
    rw [List.foldl_cons]
    obtain ⟨c1, h1, h2, h3⟩ := jsonSetStep_survives cols n c hc hd
    obtain ⟨c', h1', h2', h3'⟩ := ih (jsonSetStep cols n) c1 h1 (by rw [h3]; exact hd)
    exact ⟨c', h1', h2'.trans h2, h3'.trans h3⟩

/-! ### Values that reach a python dict come from the pair list -/

theorem pyDictUpsert_subset (l : List (String × PValue)) (k : String) (v : PValue) :
    ∀ p ∈ pyDictUpsert l k v, p ∈ l ∨ p = (k, v) := by
  induction l with
  | nil =>
    intro p hp
    simp [pyDictUpsert] at hp
    exact Or.inr hp
  | cons q rest ih =>
    obtain ⟨k', v'⟩ := q
    intro p hp
    unfold pyDictUpsert at hp
    by_cases hk : k' = k
    · rw [if_pos hk] at hp
      rcases List.mem_cons.mp hp with h | h
      · right; rw [h, hk]
      · left; exact List.mem_cons_of_mem _ h
    · rw [if_neg hk] at hp
      rcases List.mem_cons.mp hp with h | h
      · left; rw [h]; exact List.mem_cons_self _ _
      · rcases ih p h with h2 | h2
        · left; exact List.mem_cons_of_mem _ h2
        · right; exact h2

theorem pyDict_mem (pairs : List (String × PValue)) (p : String × PValue)
    (hp : p ∈ pyDict pairs) : p ∈ pairs := by
  suffices h : ∀ acc, p ∈ pairs.foldl (fun acc q => pyDictUpsert acc q.1 q.2) acc →
      p ∈ acc ∨ p ∈ pairs by
    rcases h [] hp with h2 | h2
    · simp at h2
    · exact h2
  clear hp
  induction pairs with
  | nil => intro acc h; exact Or.inl h
  | cons q rest ih =>
    intro acc h
    rw [List.foldl_cons] at h
    rcases ih (pyDictUpsert acc q.1 q.2) h with h2 | h2
    · rcases pyDictUpsert_subset acc q.1 q.2 p h2 with h3 | h3
      · exact Or.inl h3
      · right; rw [h3]; exact List.mem_cons_self _ _
    · right; exact List.mem_cons_of_mem _ h2

theorem getD_double_map_transform (l : List PValue) (i : Nat) :
    ((l.map coerceVal).map nanToNone).getD i .vNone = .vNone
    ∨ ∃ w ∈ l, ((l.map coerceVal).map nanToNone).getD i .vNone
        = nanToNone (coerceVal w) := by
  by_cases hi : i < l.length
  · right
    refine ⟨l[i], List.getElem_mem hi, ?_⟩
    rw [List.getD_eq_getElem?_getD, List.getElem?_map, List.getElem?_map,
        List.getElem?_eq_getElem hi]
    rfl
  · left
    rw [List.getD_eq_getElem?_getD, List.getElem?_map, List.getElem?_map,
        List.getElem?_eq_none (by omega)]
    rfl

/-- C8: a float column in which every value is whole (zero fractional
part) or NaN is exported by csv/json with integer tokens and explicit
nulls: (a) every written CSV cell of that column is free of `'.'`;
(b) the value transform sends each of the column's values to an int or
None; (c) the column reaches the JSON pipeline output with exactly those
transformed values; (d) no value of any emitted JSON row object is a NaN
or a whole float. -/
theorem claim_C8_whole_float_column (df : DataFrame) (j : Nat) (c : Col)
    (hwf : df.WF) (hc : df.cols[j]? = some c) (hdtype : c.dtype = "float64")
    (hvals : ∀ v ∈ c.values, (∃ q, v = PValue.vFloat q ∧ q.den = 1) ∨ v = .vNaN) :
    (∀ i, i < df.nrows →
       ∃ s, ((to_csv df).2.getD i [])[j]? = some s ∧ ∀ ch ∈ s.data, ch ≠ '.')
    ∧ (∀ v ∈ c.values,
        (∃ n, nanToNone (coerceVal v) = .vInt n) ∨ nanToNone (coerceVal v) = .vNone)
    ∧ (∃ c', c' ∈ jsonProcessCols df ∧
        c'.values = c.values.map fun v => nanToNone (coerceVal v))
    ∧ (∀ row ∈ to_json df, ∀ p ∈ row,
        p.2 ≠ PValue.vNaN ∧ ∀ q, p.2 = PValue.vFloat q → q.den ≠ 1) := by
  have hcmem : c ∈ df.cols := List.getElem?_mem hc
  have hclen : c.values.length = df.nrows := hwf.1 c hcmem
  refine ⟨?_, ?_, ?_, ?_⟩
  · -- (a) csv cells of column j
    intro i hi
    have h2 : (to_csv df).2 = (List.range df.nrows).map
        (fun i => (replaceNaNColumns (coerceColumns df.cols)).map
          fun c => csvCell (c.values.getD i .vNone)) := rfl
    have hrow : (to_csv df).2.getD i [] =
        (replaceNaNColumns (coerceColumns df.cols)).map
          (fun c => csvCell (c.values.getD i .vNone)) := by
      rw [h2, List.getD_eq_getElem?_getD, List.getElem?_map, List.getElem?_range hi]
      rfl
    have hcolj : (replaceNaNColumns (coerceColumns df.cols))[j]? =
        some ⟨c.name, "object", (c.values.map coerceVal).map nanToNone⟩ := by
      unfold replaceNaNColumns coerceColumns
      rw [List.getElem?_map, List.getElem?_map, hc]
      rfl
    refine ⟨csvCell (((c.values.map coerceVal).map nanToNone).getD i .vNone), ?_, ?_⟩
    · rw [hrow, List.getElem?_map, hcolj]
      rfl
    · have hiv : i < c.values.length := by omega
      have hval : ((c.values.map coerceVal).map nanToNone).getD i .vNone
          = nanToNone (coerceVal c.values[i]) := by
        rw [List.getD_eq_getElem?_getD, List.getElem?_map, List.getElem?_map,
            List.getElem?_eq_getElem hiv]
        rfl
      rw [hval]
      exact csvCell_int_or_none _
        (transform_whole_or_nan _ (hvals _ (List.getElem_mem hiv)))
  · -- (b) transformed values
    intro v hv
    exact transform_whole_or_nan v (hvals v hv)
  · -- (c) the column reaches the json output
    have hser : serializable_types.contains c.dtype = true := by
      rw [hdtype]; decide
    obtain ⟨c1, h1, h2, h3⟩ :=
      foldl_jsonSetStep_survives (firstDedup (df.cols.map Col.name)) df.cols c hcmem hser
    refine ⟨⟨c1.name, "object", (c1.values.map coerceVal).map nanToNone⟩, ?_, ?_⟩
    · unfold jsonProcessCols replaceNaNColumns coerceColumns
      rw [List.map_map]
      exact List.mem_map.mpr ⟨c1, h1, rfl⟩
    · show (c1.values.map coerceVal).map nanToNone = _
      rw [h2, List.map_map]
      rfl
  · -- (d) no NaN, no whole float anywhere in the json output
    intro row hrow p hp
    obtain ⟨i, _, hrow'⟩ := List.mem_map.mp hrow
    rw [← hrow'] at hp
    have hpairs := pyDict_mem _ _ hp
    obtain ⟨c'', hc'', hpair⟩ := List.mem_map.mp hpairs
    have hval : p.2 = c''.values.getD i .vNone := by rw [← hpair]
    obtain ⟨cx, hcx, hcx2⟩ : ∃ cx, cx ∈ (firstDedup (df.cols.map Col.name)).foldl
        jsonSetStep df.cols ∧ c'' = ⟨cx.name, "object", (cx.values.map coerceVal).map nanToNone⟩ := by
      unfold jsonProcessCols replaceNaNColumns coerceColumns at hc''
      rw [List.map_map] at hc''
      obtain ⟨cx, hcx, hcx2⟩ := List.mem_map.mp hc''
      exact ⟨cx, hcx, hcx2.symm⟩
    rw [hcx2] at hval
    rcases getD_double_map_transform cx.values i with hnone | ⟨w, _, hw⟩
    · have : p.2 = PValue.vNone := by rw [hval]; exact hnone
      rw [this]
      exact ⟨by simp, by simp⟩
    · have : p.2 = nanToNone (coerceVal w) := by rw [hval]; exact hw
      rw [this]
      exact transform_clean w

/-- Witness for C8: a single float64 column `[1.0, NaN]`. -/
theorem claim_C8_witness :
    (DataFrame.WF ⟨2, [⟨"x", "float64", [.vFloat 1, .vNaN]⟩], rangeIndexVals 2, true⟩) ∧
    ((⟨2, [⟨"x", "float64", [.vFloat 1, .vNaN]⟩], rangeIndexVals 2, true⟩ :
        DataFrame).cols[0]? = some ⟨"x", "float64", [.vFloat 1, .vNaN]⟩) ∧
    (∀ i, i < 2 →
       ∃ s, ((to_csv ⟨2, [⟨"x", "float64", [.vFloat 1, .vNaN]⟩],
          rangeIndexVals 2, true⟩).2.getD i [])[0]? = some s ∧ ∀ ch ∈ s.data, ch ≠ '.') := by
  have hwf : DataFrame.WF ⟨2, [⟨"x", "float64", [.vFloat 1, .vNaN]⟩],
      rangeIndexVals 2, true⟩ := ⟨by decide, rfl⟩
  have hvals : ∀ v ∈ ([PValue.vFloat 1, PValue.vNaN] : List PValue),
      (∃ q, v = PValue.vFloat q ∧ q.den = 1) ∨ v = PValue.vNaN := by
    intro v hv
    rcases List.mem_cons.mp hv with h | h
    · exact Or.inl ⟨1, h, by decide⟩
    · simp at h
      exact Or.inr h
  have h := claim_C8_whole_float_column
    ⟨2, [⟨"x", "float64", [.vFloat 1, .vNaN]⟩], rangeIndexVals 2, true⟩ 0
    ⟨"x", "float64", [.vFloat 1, .vNaN]⟩ hwf rfl rfl hvals
  exact ⟨hwf, rfl, h.1⟩

end PgSave
